import Mathlib

/-!
Package batcher: a shallow embedding of `batcher.go`.

`Buffer` wraps a caller-supplied `Collection` and flushes it on request, when an
element-count threshold is reached, or from a ticking goroutine.

The embedding is sequential with explicit interleaving points:

* every call a `Buffer` method makes on its `Collection` is performed on the
  collection state and recorded, in program order, in `Buffer.trace`, together
  with the `Lock`/`Unlock` calls on the mutex;
* the goroutine started by `New` is a small state machine (`Loop`) whose
  transitions are the events of `loopStep`;
* goroutines started with `go` are counted (`senders`, `pending`) until the
  scheduler runs them;
* `time.Duration` and `int` values are integers; the only arithmetic in the
  repository is `numFlushes++` of the test collection, which wraps at 64 bits.
-/

namespace Batcher

/-! ## Data model -/

/-- The interface `Collection`: `Add(e)`, `Flush()` and `Count() int`, over an
arbitrary implementation state `σ` and element type `ε`.  `Count` may itself
update the implementation state. -/
structure Collection (σ ε : Type) where
  Add : σ → ε → σ
  Flush : σ → σ
  Count : σ → Int × σ

/-- A method call on the collection. -/
inductive Call (ε : Type) where
  | Add (e : ε)
  | Flush
  | Count
  deriving DecidableEq, Repr

/-- What a `Buffer` does that is visible from outside: mutex operations, calls on
the collection, and the receipt of a timer tick by the goroutine. -/
inductive Ev (ε : Type) where
  | lock
  | unlock
  | call (c : Call ε)
  | tick
  deriving DecidableEq, Repr

/-- Program points of the goroutine of `New`.
`top`: about to evaluate `b.interval > 0`;
`arming`: the test was true, about to evaluate `time.After(b.interval)`;
`waiting t`: blocked in `select`, with `t = some r` a timer that fires once its
remaining time `r` is `≤ 0`, and `t = none` the fresh channel that never fires;
`terminated`: returned;  `absent`: `New` did not start it. -/
inductive Loop where
  | absent
  | top
  | arming
  | waiting (timer : Option Int)
  | terminated
  deriving DecidableEq, Repr

/-- The type `FlushMode`, an `int`. -/
abbrev FlushMode := Int

/-- The constant `Manual FlushMode = 1 << iota`, with `iota = 0`. -/
def Manual : FlushMode := Int.ofNat (1 <<< 0)

/-- The constant `TimeInterval`, `1 << iota` with `iota = 1`. -/
def TimeInterval : FlushMode := Int.ofNat (1 <<< 1)

/-- The constant `ElementCountThreshold`, `1 << iota` with `iota = 2`. -/
def ElementCountThreshold : FlushMode := Int.ofNat (1 <<< 2)

/-- The struct `Buffer`.  `data`, `mode`, `threshold`, `interval` are its fields.
The mutex is represented by the `lock`/`unlock` events of `trace`; the channel
`intervalUpdate` by the number `senders` of goroutines blocked sending on it; the
channel `stop` by the rendezvous in `Buffer.Destroy`; `pending` counts the
`go b.Flush()` goroutines not yet run; `loop` is the goroutine of `New`. -/
structure Buffer (σ ε : Type) where
  data : σ
  mode : FlushMode
  threshold : Int
  interval : Int
  loop : Loop
  senders : Nat
  pending : Nat
  trace : List (Ev ε)

variable {σ ε : Type}

/-! ## Primitive actions -/

/-- Record an event. -/
def Buffer.emit (b : Buffer σ ε) (ev : Ev ε) : Buffer σ ε :=
  { b with trace := b.trace ++ [ev] }

/-- The call `b.data.Add(e)`. -/
def Buffer.callAdd (c : Collection σ ε) (b : Buffer σ ε) (e : ε) : Buffer σ ε :=
  { b with data := c.Add b.data e, trace := b.trace ++ [Ev.call (Call.Add e)] }

/-- The call `b.data.Flush()`. -/
def Buffer.callFlush (c : Collection σ ε) (b : Buffer σ ε) : Buffer σ ε :=
  { b with data := c.Flush b.data, trace := b.trace ++ [Ev.call Call.Flush] }

/-- The call `b.data.Count()`, with its result. -/
def Buffer.callCount (c : Collection σ ε) (b : Buffer σ ε) : Int × Buffer σ ε :=
  ((c.Count b.data).1,
   { b with data := (c.Count b.data).2, trace := b.trace ++ [Ev.call Call.Count] })

/-! ## The methods of `Buffer` -/

/-- The guard `mode&TimeInterval != Manual` of `New` and `Destroy`. -/
def timed (mode : FlushMode) : Bool :=
  decide (Int.land mode TimeInterval ≠ Manual)

/-- The constructor `New(data, mode)`: threshold and interval start at 0; the goroutine is
started when the guard holds. -/
def New (data : σ) (mode : FlushMode) : Buffer σ ε :=
  let b : Buffer σ ε :=
    { data := data, mode := mode, threshold := 0, interval := 0,
      loop := Loop.absent, senders := 0, pending := 0, trace := [] }
  if timed mode then { b with loop := Loop.top } else b

/-- The method `func (b *Buffer) Flush()`. -/
def Buffer.Flush (c : Collection σ ε) (b : Buffer σ ε) : Buffer σ ε :=
  let b := b.emit Ev.lock
  let b := b.callFlush c
  b.emit Ev.unlock

/-- The method `func (b *Buffer) Add(e)`.  The `&&` is short-circuit: `Count` is
called only when the threshold is not 0. -/
def Buffer.Add (c : Collection σ ε) (b : Buffer σ ε) (e : ε) : Buffer σ ε :=
  let b := b.emit Ev.lock
  let b := b.callAdd c e
  if b.threshold ≠ 0 then
    let r := b.callCount c
    if r.1 ≥ r.2.threshold then (r.2.callFlush c).emit Ev.unlock
    else r.2.emit Ev.unlock
  else b.emit Ev.unlock

/-- The method `func (b *Buffer) SetInterval(interval) (previous)`: the `go` statement adds a
goroutine blocked on `b.intervalUpdate <- true`. -/
def Buffer.SetInterval (b : Buffer σ ε) (interval : Int) : Int × Buffer σ ε :=
  let previous := b.interval
  let b := { b with interval := interval }
  let b := { b with senders := b.senders + 1 }
  (previous, b)

/-- The method `func (b *Buffer) SetThreshold(threshold int) (previous int)`: `go b.Flush()`
adds a goroutine that will run `Buffer.Flush`. -/
def Buffer.SetThreshold (c : Collection σ ε) (b : Buffer σ ε) (threshold : Int) :
    Int × Buffer σ ε :=
  let previous := b.threshold
  let b := { b with threshold := threshold }
  if b.threshold ≠ 0 then
    let r := b.callCount c
    if r.1 ≥ r.2.threshold then (previous, { r.2 with pending := r.2.pending + 1 })
    else (previous, r.2)
  else (previous, b)

/-! ## The goroutine of `New` -/

/-- The events of the goroutine: the two reads of `b.interval` at the start of an
iteration, and the three cases of its `select`. -/
inductive LoopEvent where
  | check
  | arm
  | stop
  | intervalUpdate
  | tick
  deriving DecidableEq, Repr

/-- One transition of the goroutine, `none` when the event cannot happen at the
current program point.  `stop` is the receive `<-b.stop` (the sender is
`Destroy`), `intervalUpdate` the receive from a blocked `SetInterval` goroutine,
`tick` the receive from the timer channel followed by `b.Flush()`. -/
def loopStep (c : Collection σ ε) (b : Buffer σ ε) : LoopEvent → Option (Buffer σ ε)
  | LoopEvent.check =>
    match b.loop with
    | Loop.top =>
      if b.interval > 0 then some { b with loop := Loop.arming }
      else some { b with loop := Loop.waiting none }
    | _ => none
  | LoopEvent.arm =>
    match b.loop with
    | Loop.arming => some { b with loop := Loop.waiting (some b.interval) }
    | _ => none
  | LoopEvent.stop =>
    match b.loop with
    | Loop.waiting _ => some { b with loop := Loop.terminated }
    | _ => none
  | LoopEvent.intervalUpdate =>
    match b.loop with
    | Loop.waiting _ =>
      if 0 < b.senders then some { b with senders := b.senders - 1, loop := Loop.top }
      else none
    | _ => none
  | LoopEvent.tick =>
    match b.loop with
    | Loop.waiting (some r) =>
      if r ≤ 0 then
        let b := b.emit Ev.tick
        let b := b.Flush c
        some { b with loop := Loop.top }
      else none
    | _ => none

/-- The method `func (b *Buffer) Destroy()`: under the guard, the send `b.stop <- true` on the
unbuffered channel completes exactly when the goroutine takes `case <-b.stop`;
`none` when no receiver is in `select`, where the send stays blocked. -/
def Buffer.Destroy (c : Collection σ ε) (b : Buffer σ ε) : Option (Buffer σ ε) :=
  if timed b.mode then loopStep c b LoopEvent.stop else some b

/-! ## Interleavings -/

/-- What can happen to a `Buffer`: a method call by a client, a transition of
the goroutine, a dispatched `go b.Flush()` being run, or time passing. -/
inductive Event (ε : Type) where
  | Add (e : ε)
  | Flush
  | SetInterval (d : Int)
  | SetThreshold (n : Int)
  | Destroy
  | loop (ev : LoopEvent)
  | goFlush
  | elapse (t : Nat)
  deriving DecidableEq, Repr

/-- Is the event a method call by a client? -/
def Event.isMethod : Event ε → Bool
  | Event.Add _ => true
  | Event.Flush => true
  | Event.SetInterval _ => true
  | Event.SetThreshold _ => true
  | Event.Destroy => true
  | _ => false

/-- Time passing: a running timer has that much less remaining. -/
def Loop.elapse (t : Nat) : Loop → Loop
  | Loop.waiting (some r) => Loop.waiting (some (r - t))
  | l => l

/-- One atomic step of the system, `none` when the event is not enabled.  The
goroutine receives on `stop` only through `Destroy`. -/
def step (c : Collection σ ε) (b : Buffer σ ε) : Event ε → Option (Buffer σ ε)
  | Event.Add e => some (b.Add c e)
  | Event.Flush => some (b.Flush c)
  | Event.SetInterval d => some (b.SetInterval d).2
  | Event.SetThreshold n => some (b.SetThreshold c n).2
  | Event.Destroy => b.Destroy c
  | Event.loop LoopEvent.stop => none
  | Event.loop ev => loopStep c b ev
  | Event.goFlush =>
    if 0 < b.pending then some ({ b with pending := b.pending - 1 }.Flush c) else none
  | Event.elapse t => some { b with loop := b.loop.elapse t }

/-- A schedule: the events one after the other. -/
def run (c : Collection σ ε) (b : Buffer σ ε) : List (Event ε) → Option (Buffer σ ε)
  | [] => some b
  | ev :: evs =>
    match step c b ev with
    | some b1 => run c b1 evs
    | none => none

/-- Successive `Add` calls. -/
def addAll (c : Collection σ ε) (b : Buffer σ ε) : List ε → Buffer σ ε
  | [] => b
  | e :: es => addAll c (b.Add c e) es

/-! ## Observations on traces -/

/-- The events recorded between state `b` and a later state `b1`. -/
def Buffer.since (b b1 : Buffer σ ε) : List (Ev ε) :=
  b1.trace.drop b.trace.length

/-- The calls on the collection, in order. -/
def calls : List (Ev ε) → List (Call ε)
  | [] => []
  | Ev.call c :: tr => c :: calls tr
  | _ :: tr => calls tr

/-- Number of `Flush` calls on the collection. -/
def flushCalls : List (Ev ε) → Nat
  | [] => 0
  | Ev.call Call.Flush :: tr => flushCalls tr + 1
  | _ :: tr => flushCalls tr

/-- The elements passed to `Add` calls on the collection, in order. -/
def addCalls : List (Ev ε) → List ε
  | [] => []
  | Ev.call (Call.Add e) :: tr => e :: addCalls tr
  | _ :: tr => addCalls tr

/-- Number of timer ticks received by the goroutine. -/
def ticks : List (Ev ε) → Nat
  | [] => 0
  | Ev.tick :: tr => ticks tr + 1
  | _ :: tr => ticks tr

/-- The calls on the collection made while the mutex is not held, given whether
it is held at the start. -/
def unguarded : Bool → List (Ev ε) → List (Call ε)
  | _, [] => []
  | _, Ev.lock :: tr => unguarded true tr
  | _, Ev.unlock :: tr => unguarded false tr
  | held, Ev.call c :: tr => if held then unguarded held tr else c :: unguarded held tr
  | held, Ev.tick :: tr => unguarded held tr

/-! ## The test collection -/

/-- The Go type `byte`. -/
abbrev byte := Fin 256

/-- A Go `int` after an arithmetic operation: two's complement on 64 bits. -/
def wrapInt (x : Int) : Int :=
  (x + 9223372036854775808) % 18446744073709551616 - 9223372036854775808

/-- The struct `collTest` of the tests. -/
structure collTest where
  data : List byte
  numFlushes : Int
  deriving DecidableEq, Repr

/-- The method `func (r *collTest) Add(e)`, on the bytes it accepts. -/
def collTest.Add (r : collTest) (e : byte) : collTest :=
  { r with data := r.data ++ [e] }

/-- The method `func (r *collTest) Flush()`. -/
def collTest.Flush (r : collTest) : collTest :=
  let r := { r with numFlushes := wrapInt (r.numFlushes + 1) }
  { r with data := [] }

/-- The method `func (r *collTest) Count() int`. -/
def collTest.Count (r : collTest) : Int :=
  (r.data.length : Int)

/-- The type `*collTest` as a `Collection`. -/
def collTest.coll : Collection collTest byte :=
  { Add := collTest.Add, Flush := collTest.Flush, Count := fun r => (r.Count, r) }

/-- The literal `&collTest{make([]byte, 0), 0}`. -/
def collTest.empty : collTest :=
  { data := [], numFlushes := 0 }

/-! ## Basic facts -/

/-- The value `mode & 2` is 0 or 2, never 1 (`Manual`): the guard of `New` and `Destroy`
holds for every mode. -/
theorem timed_eq_true (mode : FlushMode) : timed mode = true := by
  have h0 : Int.testBit 2 0 = false := by decide
  have h1 : Int.testBit 1 0 = true := by decide
  have hne : Int.land mode 2 ≠ 1 := by
    intro h
    have hb := Int.testBit_land mode 2 0
    rw [h, h1, h0] at hb
    simp at hb
  simpa [timed, TimeInterval, Manual] using hne

section Since

variable (c : Collection σ ε) (b : Buffer σ ε)

theorem since_emit (ev : Ev ε) : b.since (b.emit ev) = [ev] := by
  simp [Buffer.since, Buffer.emit]

theorem trace_Flush :
    (b.Flush c).trace = b.trace ++ [Ev.lock, Ev.call Call.Flush, Ev.unlock] := by
  simp [Buffer.Flush, Buffer.emit, Buffer.callFlush]

theorem trace_Add (e : ε) :
    (b.Add c e).trace = b.trace ++
      (if b.threshold ≠ 0 then
        if (c.Count (c.Add b.data e)).1 ≥ b.threshold then
          [Ev.lock, Ev.call (Call.Add e), Ev.call Call.Count, Ev.call Call.Flush, Ev.unlock]
        else [Ev.lock, Ev.call (Call.Add e), Ev.call Call.Count, Ev.unlock]
      else [Ev.lock, Ev.call (Call.Add e), Ev.unlock]) := by
  unfold Buffer.Add
  by_cases h0 : b.threshold = 0
  · simp [Buffer.emit, Buffer.callAdd, h0]
  · by_cases h1 : b.threshold ≤ (c.Count (c.Add b.data e)).1
    · simp [Buffer.emit, Buffer.callAdd, Buffer.callCount, Buffer.callFlush, h0, h1]
    · simp [Buffer.emit, Buffer.callAdd, Buffer.callCount, Buffer.callFlush, h0, h1]

theorem since_of_trace {b1 : Buffer σ ε} {seg : List (Ev ε)}
    (h : b1.trace = b.trace ++ seg) : b.since b1 = seg := by
  simp [Buffer.since, h]

end Since

section Fields

variable (c : Collection σ ε) (b : Buffer σ ε)

theorem data_Add (e : ε) :
    (b.Add c e).data =
      (if b.threshold ≠ 0 then
        if (c.Count (c.Add b.data e)).1 ≥ b.threshold then
          c.Flush (c.Count (c.Add b.data e)).2
        else (c.Count (c.Add b.data e)).2
      else c.Add b.data e) := by
  unfold Buffer.Add
  by_cases h0 : b.threshold = 0
  · simp [Buffer.emit, Buffer.callAdd, h0]
  · by_cases h1 : b.threshold ≤ (c.Count (c.Add b.data e)).1
    · simp [Buffer.emit, Buffer.callAdd, Buffer.callCount, Buffer.callFlush, h0, h1]
    · simp [Buffer.emit, Buffer.callAdd, Buffer.callCount, Buffer.callFlush, h0, h1]

theorem frame_Add (e : ε) :
    (b.Add c e).threshold = b.threshold ∧ (b.Add c e).interval = b.interval ∧
    (b.Add c e).mode = b.mode ∧ (b.Add c e).loop = b.loop ∧
    (b.Add c e).senders = b.senders ∧ (b.Add c e).pending = b.pending := by
  unfold Buffer.Add
  by_cases h0 : b.threshold = 0
  · simp [Buffer.emit, Buffer.callAdd, h0]
  · by_cases h1 : b.threshold ≤ (c.Count (c.Add b.data e)).1
    · simp [Buffer.emit, Buffer.callAdd, Buffer.callCount, Buffer.callFlush, h0, h1]
    · simp [Buffer.emit, Buffer.callAdd, Buffer.callCount, Buffer.callFlush, h0, h1]

end Fields

/-! ## C1: `Add` -/

/-- C1. For every buffer state, collection and element `e`, `Add(e)` calls the
collection's `Add(e)` exactly once, first, and then calls the collection's `Flush`
exactly once if `threshold ≠ 0` and the `Count` read after the append is
`≥ threshold`, and does not call `Flush` otherwise; the collection state follows
these calls; threshold, interval and mode are unchanged, and nothing is
dispatched. -/
theorem Add_spec (c : Collection σ ε) (b : Buffer σ ε) (e : ε) :
    (b.Add c e).trace = b.trace ++ b.since (b.Add c e) ∧
    addCalls (b.since (b.Add c e)) = [e] ∧
    (calls (b.since (b.Add c e))).head? = some (Call.Add e) ∧
    flushCalls (b.since (b.Add c e)) =
      (if b.threshold ≠ 0 ∧ (c.Count (c.Add b.data e)).1 ≥ b.threshold then 1 else 0) ∧
    calls (b.since (b.Add c e)) =
      (if b.threshold ≠ 0 ∧ (c.Count (c.Add b.data e)).1 ≥ b.threshold then
        [Call.Add e, Call.Count, Call.Flush]
      else if b.threshold ≠ 0 then [Call.Add e, Call.Count] else [Call.Add e]) ∧
    (b.Add c e).data =
      (if b.threshold ≠ 0 ∧ (c.Count (c.Add b.data e)).1 ≥ b.threshold then
        c.Flush (c.Count (c.Add b.data e)).2
      else if b.threshold ≠ 0 then (c.Count (c.Add b.data e)).2 else c.Add b.data e) ∧
    (b.Add c e).threshold = b.threshold ∧ (b.Add c e).interval = b.interval ∧
    (b.Add c e).mode = b.mode ∧ (b.Add c e).pending = b.pending := by
  have ht := trace_Add c b e
  have hd := data_Add c b e
  obtain ⟨f1, f2, f3, -, -, f6⟩ := frame_Add c b e
  by_cases h0 : b.threshold = 0
  · simp only [h0, ne_eq, not_true_eq_false, if_false, false_and] at ht hd ⊢
    rw [since_of_trace b ht]
    simp [ht, hd, addCalls, calls, flushCalls, f1.trans h0, f2, f3, f6]
  · by_cases h1 : b.threshold ≤ (c.Count (c.Add b.data e)).1
    · simp only [h0, h1, ne_eq, not_false_eq_true, if_true, true_and, ge_iff_le] at ht hd ⊢
      rw [since_of_trace b ht]
      simp [ht, hd, addCalls, calls, flushCalls, f1, f2, f3, f6]
    · simp only [h0, h1, ne_eq, not_false_eq_true, if_true, if_false, true_and, and_false,
        ge_iff_le] at ht hd ⊢
      rw [since_of_trace b ht]
      simp [ht, hd, addCalls, calls, flushCalls, f1, f2, f3, f6]

/-! ## C2: the threshold cycle on the test collection -/

theorem flushCalls_append (xs ys : List (Ev ε)) :
    flushCalls (xs ++ ys) = flushCalls xs + flushCalls ys := by
  induction xs with
  | nil => simp [flushCalls]
  | cons x xs ih =>
    cases x with
    | call k =>
      cases k
      all_goals simp [flushCalls, ih]
      omega
    | _ => simp [flushCalls, ih]

theorem addAll_trace (c : Collection σ ε) (es : List ε) (b : Buffer σ ε) :
    ∃ seg, (addAll c b es).trace = b.trace ++ seg := by
  induction es generalizing b with
  | nil => exact ⟨[], by simp [addAll]⟩
  | cons e es ih =>
    obtain ⟨seg, hseg⟩ := ih (b.Add c e)
    rw [trace_Add, List.append_assoc] at hseg
    exact ⟨_, hseg⟩

theorem addAll_threshold (c : Collection σ ε) (es : List ε) (b : Buffer σ ε) :
    (addAll c b es).threshold = b.threshold := by
  induction es generalizing b with
  | nil => rfl
  | cons e es ih => rw [addAll, ih, (frame_Add c b e).1]

theorem wrapInt_add (x y : Int) : wrapInt (wrapInt x + y) = wrapInt (x + y) := by
  unfold wrapInt
  omega

theorem wrapInt_of_small (x : Int) (h0 : 0 ≤ x) (h1 : x < 9223372036854775808) :
    wrapInt x = x := by
  unfold wrapInt
  omega

theorem coll_Add (r : collTest) (e : byte) : collTest.coll.Add r e = r.Add e := rfl

theorem coll_Flush (r : collTest) : collTest.coll.Flush r = r.Flush := rfl

theorem coll_Count (r : collTest) : collTest.coll.Count r = (r.Count, r) := rfl

theorem collTest_cycle (N : Nat) (hN : 1 ≤ N) (es : List byte) :
    ∀ (b : Buffer collTest byte), b.threshold = (N : Int) → b.data.data.length < N →
      wrapInt b.data.numFlushes = b.data.numFlushes →
      flushCalls (addAll collTest.coll b es).trace =
        flushCalls b.trace + (b.data.data.length + es.length) / N ∧
      (addAll collTest.coll b es).data.data.length = (b.data.data.length + es.length) % N ∧
      (addAll collTest.coll b es).data.numFlushes =
        wrapInt (b.data.numFlushes + ((b.data.data.length + es.length) / N : Nat)) := by
  induction es with
  | nil =>
    intro b _ hr hw
    simp [addAll, Nat.div_eq_of_lt hr, Nat.mod_eq_of_lt hr, hw]
  | cons e es ih =>
    intro b hthr hr hw
    have hthr1 : (b.Add collTest.coll e).threshold = (N : Int) := by
      rw [(frame_Add collTest.coll b e).1, hthr]
    have hN0 : (N : Int) ≠ 0 := by omega
    have ht := trace_Add collTest.coll b e
    have hd := data_Add collTest.coll b e
    simp only [hthr, ne_eq, hN0, not_false_eq_true, if_true, coll_Add, coll_Flush, coll_Count,
      collTest.Count, collTest.Add, List.length_append, List.length_singleton, ge_iff_le]
      at ht hd
    by_cases hfull : b.data.data.length + 1 < N
    · have hlt : ¬ ((N : Int) ≤ ((b.data.data.length + 1 : Nat) : Int)) := by omega
      rw [if_neg hlt] at ht hd
      have hlen : (b.Add collTest.coll e).data.data.length = b.data.data.length + 1 := by
        simp [hd]
      have hnf : (b.Add collTest.coll e).data.numFlushes = b.data.numFlushes := by
        simp [hd]
      have hfl : flushCalls (b.Add collTest.coll e).trace = flushCalls b.trace := by
        simp [ht, flushCalls_append, flushCalls]
      obtain ⟨i1, i2, i3⟩ := ih (b.Add collTest.coll e) hthr1 (by omega) (by rw [hnf]; exact hw)
      have hk : b.data.data.length + (e :: es).length = b.data.data.length + 1 + es.length := by
        simp only [List.length_cons]; omega
      rw [addAll, hk]
      rw [hlen, hfl] at i1
      rw [hlen] at i2
      rw [hlen, hnf] at i3
      exact ⟨i1, i2, i3⟩
    · have hge : (N : Int) ≤ ((b.data.data.length + 1 : Nat) : Int) := by omega
      rw [if_pos hge] at ht hd
      have hlen : (b.Add collTest.coll e).data.data.length = 0 := by
        simp [hd, collTest.Flush]
      have hnf : (b.Add collTest.coll e).data.numFlushes = wrapInt (b.data.numFlushes + 1) := by
        simp [hd, collTest.Flush]
      have hfl : flushCalls (b.Add collTest.coll e).trace = flushCalls b.trace + 1 := by
        simp [ht, flushCalls_append, flushCalls]
      have hw1 : wrapInt (b.Add collTest.coll e).data.numFlushes =
          (b.Add collTest.coll e).data.numFlushes := by
        rw [hnf]; unfold wrapInt; omega
      obtain ⟨i1, i2, i3⟩ := ih (b.Add collTest.coll e) hthr1 (by omega) hw1
      have hk : b.data.data.length + (e :: es).length = N + es.length := by
        simp only [List.length_cons]; omega
      rw [addAll, hk, Nat.add_div_left _ (by omega : 0 < N), Nat.add_mod_left]
      rw [hlen, hfl, Nat.zero_add] at i1
      rw [hlen, Nat.zero_add] at i2
      rw [hlen, hnf, Nat.zero_add, wrapInt_add] at i3
      refine ⟨by rw [i1]; omega, i2, ?_⟩
      rw [i3]
      congr 1
      push_cast
      omega

/-- C2. For every threshold `N ≥ 1` and every sequence of `k` elements: starting
from a buffer with threshold `N` wrapping the empty test collection, after the `k`
calls to `Add` the collection has been flushed exactly `k / N` times and holds
exactly `k % N` elements (its counter `numFlushes` is `k / N` as a Go `int`); in
particular after exactly `N` calls there has been one flush and `Count` is 0. -/
theorem Add_cycle (N : Nat) (hN : 1 ≤ N) (b : Buffer collTest byte)
    (hthr : b.threshold = (N : Int)) (hdata : b.data = collTest.empty) (es : List byte) :
    flushCalls (b.since (addAll collTest.coll b es)) = es.length / N ∧
    (addAll collTest.coll b es).data.data.length = es.length % N ∧
    (addAll collTest.coll b es).data.Count = ((es.length % N : Nat) : Int) ∧
    (addAll collTest.coll b es).data.numFlushes = wrapInt ((es.length / N : Nat) : Int) ∧
    (es.length / N < 9223372036854775808 →
      (addAll collTest.coll b es).data.numFlushes = ((es.length / N : Nat) : Int)) ∧
    (es.length = N →
      flushCalls (b.since (addAll collTest.coll b es)) = 1 ∧
      (addAll collTest.coll b es).data.Count = 0) := by
  obtain ⟨i1, i2, i3⟩ := collTest_cycle N hN es b hthr (by rw [hdata]; simpa [collTest.empty] using hN)
    (by rw [hdata]; decide)
  obtain ⟨seg, hseg⟩ := addAll_trace collTest.coll es b
  have hlen0 : b.data.data.length = 0 := by rw [hdata]; rfl
  have hnf0 : b.data.numFlushes = 0 := by rw [hdata]; rfl
  rw [hlen0, Nat.zero_add] at i1 i2 i3
  rw [hnf0, Int.zero_add] at i3
  have hfl : flushCalls (b.since (addAll collTest.coll b es)) = es.length / N := by
    rw [since_of_trace b hseg]
    rw [hseg, flushCalls_append] at i1
    omega
  have hcount : (addAll collTest.coll b es).data.Count = ((es.length % N : Nat) : Int) := by
    simp [collTest.Count, i2]
  refine ⟨hfl, i2, hcount, i3, ?_, ?_⟩
  · intro hsmall
    rw [i3]
    exact wrapInt_of_small _ (by omega) (by omega)
  · intro hk
    rw [hfl, hcount, hk, Nat.div_self (by omega), Nat.mod_self]
    exact ⟨rfl, rfl⟩

/-- The scenario of `TestAdd`: threshold 2, two `Add` calls, one flush, count 0. -/
theorem Add_cycle_witness :
    flushCalls (((New collTest.empty 6).SetThreshold collTest.coll 2).2.since
      (addAll collTest.coll ((New collTest.empty 6).SetThreshold collTest.coll 2).2 [0, 1])) = 1 ∧
    (addAll collTest.coll ((New collTest.empty 6).SetThreshold collTest.coll 2).2
      [0, 1]).data.Count = 0 :=
  have h := Add_cycle 2 (by decide) ((New collTest.empty 6).SetThreshold collTest.coll 2).2
    (by decide) (by decide) [0, 1]
  h.2.2.2.2.2 rfl

/-! ## C3: `SetThreshold` -/

/-- C3. `SetThreshold(n)` stores `n`, returns the threshold stored before, and
dispatches one `go b.Flush()` if `n ≠ 0` and the `Count` it reads is `≥ n`, none
otherwise; before it returns it calls neither `Add` nor `Flush` on the collection
(its only call is that `Count`, made when `n ≠ 0`); interval and mode are
unchanged, and the goroutine of `New` is not notified. -/
theorem SetThreshold_spec (c : Collection σ ε) (b : Buffer σ ε) (n : Int) :
    (b.SetThreshold c n).2.threshold = n ∧
    (b.SetThreshold c n).1 = b.threshold ∧
    (b.SetThreshold c n).2.pending =
      b.pending + (if n ≠ 0 ∧ (c.Count b.data).1 ≥ n then 1 else 0) ∧
    (b.SetThreshold c n).2.trace = b.trace ++ b.since (b.SetThreshold c n).2 ∧
    flushCalls (b.since (b.SetThreshold c n).2) = 0 ∧
    addCalls (b.since (b.SetThreshold c n).2) = [] ∧
    calls (b.since (b.SetThreshold c n).2) = (if n ≠ 0 then [Call.Count] else []) ∧
    (b.SetThreshold c n).2.data = (if n ≠ 0 then (c.Count b.data).2 else b.data) ∧
    (b.SetThreshold c n).2.interval = b.interval ∧
    (b.SetThreshold c n).2.mode = b.mode ∧
    (b.SetThreshold c n).2.senders = b.senders ∧
    (b.SetThreshold c n).2.loop = b.loop := by
  unfold Buffer.SetThreshold
  by_cases h0 : n = 0
  · simp [h0, Buffer.since, flushCalls, addCalls, calls]
  · by_cases h1 : n ≤ (c.Count b.data).1
    · simp [h0, h1, Buffer.since, Buffer.callCount, flushCalls, addCalls, calls]
    · simp [h0, h1, Buffer.since, Buffer.callCount, flushCalls, addCalls, calls]

/-! ## C6: `Flush` -/

theorem frame_Flush (c : Collection σ ε) (b : Buffer σ ε) :
    (b.Flush c).data = c.Flush b.data ∧
    (b.Flush c).threshold = b.threshold ∧ (b.Flush c).interval = b.interval ∧
    (b.Flush c).mode = b.mode ∧ (b.Flush c).loop = b.loop ∧
    (b.Flush c).senders = b.senders ∧ (b.Flush c).pending = b.pending := by
  simp [Buffer.Flush, Buffer.emit, Buffer.callFlush]

/-- C6. For every buffer state and collection, whatever its count, `Flush` calls
the collection's `Flush` exactly once and makes no other call on it, before it
returns (nothing is dispatched); threshold, interval and mode are unchanged.  When
the collection's `Flush` empties it (its contents, whose length `Count` reports),
`Count` after `Flush` is 0 and a second `Flush` leaves the contents as the first
left them. -/
theorem Flush_spec (c : Collection σ ε) (b : Buffer σ ε) :
    (b.Flush c).trace = b.trace ++ b.since (b.Flush c) ∧
    calls (b.since (b.Flush c)) = [Call.Flush] ∧
    flushCalls (b.since (b.Flush c)) = 1 ∧
    (b.Flush c).data = c.Flush b.data ∧
    (b.Flush c).threshold = b.threshold ∧
    (b.Flush c).interval = b.interval ∧
    (b.Flush c).mode = b.mode ∧
    (b.Flush c).pending = b.pending ∧
    (b.Flush c).senders = b.senders ∧
    (b.Flush c).loop = b.loop ∧
    ∀ contents : σ → List ε,
      (∀ s, contents (c.Flush s) = []) →
      (∀ s, (c.Count s).1 = ((contents s).length : Int)) →
      (c.Count (b.Flush c).data).1 = 0 ∧
      contents ((b.Flush c).Flush c).data = contents (b.Flush c).data := by
  have ht := trace_Flush c b
  obtain ⟨f1, f2, f3, f4, f5, f6, f7⟩ := frame_Flush c b
  refine ⟨?_, ?_, ?_, f1, f2, f3, f4, f7, f6, f5, ?_⟩
  · rw [since_of_trace b ht, ht]
  · rw [since_of_trace b ht]; rfl
  · rw [since_of_trace b ht]; rfl
  · intro contents hempty hcount
    rw [(frame_Flush c (b.Flush c)).1, f1, hcount, hempty, hempty]
    exact ⟨rfl, rfl⟩

/-- The test `TestFlush`, with a second `Flush`: on the empty test collection the first
`Flush` is one call, `Count` is 0 afterwards, and the second leaves `data` empty. -/
theorem Flush_spec_witness :
    flushCalls ((New collTest.empty 6).since ((New collTest.empty 6).Flush collTest.coll)) = 1 ∧
    collTest.Count ((New collTest.empty 6).Flush collTest.coll).data = 0 ∧
    (((New collTest.empty 6).Flush collTest.coll).Flush collTest.coll).data.data =
      ((New collTest.empty 6).Flush collTest.coll).data.data :=
  have h := Flush_spec collTest.coll (New collTest.empty 6)
  have h2 := h.2.2.2.2.2.2.2.2.2.2 collTest.data (fun _ => rfl) (fun _ => rfl)
  ⟨h.2.2.1, h2.1, h2.2⟩

/-! ## The transitions of the goroutine, characterised -/

section LoopFacts

variable (c : Collection σ ε) (b b1 : Buffer σ ε)

theorem loopStep_check_iff :
    loopStep c b LoopEvent.check = some b1 ↔
      b.loop = Loop.top ∧
      b1 = { b with loop := if b.interval > 0 then Loop.arming else Loop.waiting none } := by
  unfold loopStep
  cases hl : b.loop <;> by_cases hi : b.interval > 0 <;> simp [hi, eq_comm]

theorem loopStep_arm_iff :
    loopStep c b LoopEvent.arm = some b1 ↔
      b.loop = Loop.arming ∧ b1 = { b with loop := Loop.waiting (some b.interval) } := by
  unfold loopStep
  cases hl : b.loop <;> simp [eq_comm]

theorem loopStep_stop_iff :
    loopStep c b LoopEvent.stop = some b1 ↔
      (∃ t, b.loop = Loop.waiting t) ∧ b1 = { b with loop := Loop.terminated } := by
  unfold loopStep
  cases hl : b.loop <;> simp [eq_comm]

theorem loopStep_intervalUpdate_iff :
    loopStep c b LoopEvent.intervalUpdate = some b1 ↔
      (∃ t, b.loop = Loop.waiting t) ∧ 0 < b.senders ∧
      b1 = { b with senders := b.senders - 1, loop := Loop.top } := by
  unfold loopStep
  cases hl : b.loop <;> by_cases hs : 0 < b.senders <;> simp [hs, eq_comm]

theorem loopStep_tick_iff :
    loopStep c b LoopEvent.tick = some b1 ↔
      ∃ r, b.loop = Loop.waiting (some r) ∧ r ≤ 0 ∧
        b1 = { (b.emit Ev.tick).Flush c with loop := Loop.top } := by
  unfold loopStep
  cases hl : b.loop with
  | waiting t =>
    cases t with
    | none => simp
    | some r => by_cases hr : r ≤ 0 <;> simp [hr, eq_comm]
  | _ => simp

end LoopFacts

/-! ## What one step records -/

theorem trace_SetThreshold (c : Collection σ ε) (b : Buffer σ ε) (n : Int) :
    (b.SetThreshold c n).2.trace = b.trace ++ (if n ≠ 0 then [Ev.call Call.Count] else []) := by
  unfold Buffer.SetThreshold
  by_cases h0 : n = 0
  · simp [h0]
  · by_cases h1 : n ≤ (c.Count b.data).1
    · simp [h0, h1, Buffer.callCount]
    · simp [h0, h1, Buffer.callCount]

/-- The events recorded by one step: the goroutine's tick records the tick and a
locked `Flush`; every other step records no tick, and either makes all its calls
under the mutex or is a `SetThreshold` recording its `Count`. -/
theorem step_seg (c : Collection σ ε) (b b1 : Buffer σ ε) (ev : Event ε)
    (h : step c b ev = some b1) :
    ∃ seg, b1.trace = b.trace ++ seg ∧
      ((ev = Event.loop LoopEvent.tick ∧
          seg = [Ev.tick, Ev.lock, Ev.call Call.Flush, Ev.unlock]) ∨
       (ev ≠ Event.loop LoopEvent.tick ∧ ticks seg = 0 ∧
          (unguarded false seg = [] ∨
            ∃ n, n ≠ 0 ∧ ev = Event.SetThreshold n ∧ seg = [Ev.call Call.Count]))) := by
  cases ev with
  | Add e =>
    simp only [step, Option.some.injEq] at h
    subst h
    refine ⟨_, trace_Add c b e, Or.inr ⟨by simp, ?_⟩⟩
    by_cases h0 : b.threshold = 0
    · simp [h0, ticks, unguarded]
    · by_cases h1 : b.threshold ≤ (c.Count (c.Add b.data e)).1
      · simp [h0, h1, ticks, unguarded]
      · simp [h0, h1, ticks, unguarded]
  | Flush =>
    simp only [step, Option.some.injEq] at h
    subst h
    exact ⟨_, trace_Flush c b, Or.inr ⟨by simp, by simp [ticks, unguarded]⟩⟩
  | SetInterval d =>
    simp only [step, Option.some.injEq] at h
    subst h
    exact ⟨[], by simp [Buffer.SetInterval], Or.inr ⟨by simp, by simp [ticks, unguarded]⟩⟩
  | SetThreshold n =>
    simp only [step, Option.some.injEq] at h
    subst h
    refine ⟨_, trace_SetThreshold c b n, Or.inr ⟨by simp, ?_⟩⟩
    by_cases h0 : n = 0
    · simp [h0, ticks, unguarded]
    · simp [h0, ticks, unguarded]
  | Destroy =>
    simp only [step, Buffer.Destroy] at h
    by_cases ht : timed b.mode = true
    · rw [if_pos ht, loopStep_stop_iff] at h
      obtain ⟨-, rfl⟩ := h
      exact ⟨[], by simp, Or.inr ⟨by simp, by simp [ticks, unguarded]⟩⟩
    · rw [if_neg ht, Option.some.injEq] at h
      subst h
      exact ⟨[], by simp, Or.inr ⟨by simp, by simp [ticks, unguarded]⟩⟩
  | loop lev =>
    cases lev with
    | check =>
      simp only [step] at h
      rw [loopStep_check_iff] at h
      obtain ⟨-, rfl⟩ := h
      exact ⟨[], by simp, Or.inr ⟨by simp, by simp [ticks, unguarded]⟩⟩
    | arm =>
      simp only [step] at h
      rw [loopStep_arm_iff] at h
      obtain ⟨-, rfl⟩ := h
      exact ⟨[], by simp, Or.inr ⟨by simp, by simp [ticks, unguarded]⟩⟩
    | stop => simp [step] at h
    | intervalUpdate =>
      simp only [step] at h
      rw [loopStep_intervalUpdate_iff] at h
      obtain ⟨-, -, rfl⟩ := h
      exact ⟨[], by simp, Or.inr ⟨by simp, by simp [ticks, unguarded]⟩⟩
    | tick =>
      simp only [step] at h
      rw [loopStep_tick_iff] at h
      obtain ⟨r, -, -, rfl⟩ := h
      refine ⟨_, ?_, Or.inl ⟨rfl, rfl⟩⟩
      simp [trace_Flush, Buffer.emit]
  | goFlush =>
    simp only [step] at h
    by_cases hp : 0 < b.pending
    · rw [if_pos hp, Option.some.injEq] at h
      subst h
      exact ⟨_, trace_Flush c _, Or.inr ⟨by simp, by simp [ticks, unguarded]⟩⟩
    · rw [if_neg hp] at h
      exact absurd h (by simp)
  | elapse t =>
    simp only [step, Option.some.injEq] at h
    subst h
    exact ⟨[], by simp, Or.inr ⟨by simp, by simp [ticks, unguarded]⟩⟩

/-! ## C7: the mutex -/

/-- C7, as the code has it. In every step of the system (a method call, a
transition of the goroutine, a dispatched flush), every `Add` and `Flush` call on
the collection, and the `Count` call of `Add`, is made while the mutex is held by
the operation making it; the only call made without the mutex is the `Count` call
of a `SetThreshold(n)` with `n ≠ 0`, which is made without it. -/
theorem calls_under_mutex (c : Collection σ ε) (b b1 : Buffer σ ε) (ev : Event ε)
    (h : step c b ev = some b1) :
    b1.trace = b.trace ++ b.since b1 ∧
    (∀ k ∈ unguarded false (b.since b1),
      k = Call.Count ∧ ∃ n, n ≠ 0 ∧ ev = Event.SetThreshold n) ∧
    ((∀ n, ev ≠ Event.SetThreshold n) → unguarded false (b.since b1) = []) ∧
    (∀ n, n ≠ 0 → unguarded false (b.since (b.SetThreshold c n).2) = [Call.Count]) := by
  obtain ⟨seg, hseg, hcase⟩ := step_seg c b b1 ev h
  rw [since_of_trace b hseg]
  refine ⟨hseg, ?_, ?_, ?_⟩
  rotate_left 2
  · intro n hn
    have ht := trace_SetThreshold c b n
    rw [if_pos hn] at ht
    rw [since_of_trace b ht]
    rfl
  · intro k hk
    rcases hcase with ⟨-, rfl⟩ | ⟨-, -, hu | ⟨n, hn, hev, rfl⟩⟩
    · simp [unguarded] at hk
    · rw [hu] at hk; simp at hk
    · simp only [unguarded, Bool.false_eq_true, if_false, List.mem_singleton] at hk
      exact ⟨hk, n, hn, hev⟩
  · intro hne
    rcases hcase with ⟨-, rfl⟩ | ⟨-, -, hu | ⟨n, -, hev, -⟩⟩
    · simp [unguarded]
    · exact hu
    · exact absurd hev (hne n)

/-- An `Add` on the test collection with threshold 1: its three calls (`Add`,
`Count`, `Flush`) are all made under the mutex. -/
theorem calls_under_mutex_witness :
    calls (((New collTest.empty 6).SetThreshold collTest.coll 1).2.since
      (((New collTest.empty 6).SetThreshold collTest.coll 1).2.Add collTest.coll 0)) =
        [Call.Add 0, Call.Count, Call.Flush] ∧
    unguarded false (((New collTest.empty 6).SetThreshold collTest.coll 1).2.since
      (((New collTest.empty 6).SetThreshold collTest.coll 1).2.Add collTest.coll 0)) = [] :=
  ⟨by decide,
   (calls_under_mutex collTest.coll ((New collTest.empty 6).SetThreshold collTest.coll 1).2
      (((New collTest.empty 6).SetThreshold collTest.coll 1).2.Add collTest.coll 0)
      (Event.Add 0) rfl).2.2.1 (fun _ hn => Event.noConfusion hn)⟩

/-- C7 fails as stated: `SetThreshold(2)`, as in `TestAdd`, calls `Count` on the
collection and the mutex is not held (it is never locked by `SetThreshold`). -/
theorem SetThreshold_Count_without_mutex :
    step collTest.coll (New collTest.empty 6) (Event.SetThreshold 2) =
      some ((New collTest.empty 6).SetThreshold collTest.coll 2).2 ∧
    (New collTest.empty 6).since ((New collTest.empty 6).SetThreshold collTest.coll 2).2 =
      [Ev.call Call.Count] ∧
    unguarded false
      ((New collTest.empty 6).since ((New collTest.empty 6).SetThreshold collTest.coll 2).2) =
      [Call.Count] := by
  refine ⟨rfl, ?_, ?_⟩ <;> decide

/-! ## C4: no threshold, no flush -/

theorem addCalls_nil_calls (c : Collection σ ε) (es : List ε) (b : Buffer σ ε)
    (h : b.threshold = 0) :
    ∃ seg, (addAll c b es).trace = b.trace ++ seg ∧ flushCalls seg = 0 ∧
      calls seg = es.map Call.Add ∧ (addAll c b es).data = es.foldl c.Add b.data := by
  induction es generalizing b with
  | nil => exact ⟨[], by simp [addAll], rfl, rfl, rfl⟩
  | cons e es ih =>
    have h1 : (b.Add c e).threshold = 0 := by rw [(frame_Add c b e).1, h]
    obtain ⟨seg, hseg, hfl, hcalls, hdata⟩ := ih (b.Add c e) h1
    have ht := trace_Add c b e
    have hd := data_Add c b e
    simp only [h, ne_eq, not_true_eq_false, if_false] at ht hd
    refine ⟨[Ev.lock, Ev.call (Call.Add e), Ev.unlock] ++ seg, ?_, ?_, ?_, ?_⟩
    · rw [addAll, hseg, ht, List.append_assoc]
    · simp [flushCalls, hfl]
    · simp [calls, hcalls]
    · rw [addAll, hdata, hd, List.foldl_cons]

/-- C4, as the code has it. For every buffer whose threshold is 0, whatever its
mode, no sequence of `Add` calls flushes the collection: the calls made on it are
exactly the `Add`s, in order, and it ends as those leave it. -/
theorem Add_no_flush (c : Collection σ ε) (b : Buffer σ ε) (h : b.threshold = 0)
    (es : List ε) :
    flushCalls (b.since (addAll c b es)) = 0 ∧
    calls (b.since (addAll c b es)) = es.map Call.Add ∧
    (addAll c b es).data = es.foldl c.Add b.data ∧
    (addAll c b es).threshold = 0 := by
  obtain ⟨seg, hseg, hfl, hcalls, hdata⟩ := addCalls_nil_calls c es b h
  rw [since_of_trace b hseg]
  exact ⟨hfl, hcalls, hdata, by rw [addAll_threshold, h]⟩

/-- The start of `TestAdd`: no threshold set, two `Add` calls, no flush, count 2. -/
theorem Add_no_flush_witness :
    flushCalls ((New collTest.empty 6).since
      (addAll collTest.coll (New collTest.empty 6) [0, 0])) = 0 ∧
    (addAll collTest.coll (New collTest.empty 6) [0, 0]).data.Count = 2 :=
  have h := Add_no_flush collTest.coll (New collTest.empty 6) rfl [0, 0]
  ⟨h.1, by rw [h.2.2.1]; rfl⟩

/-- C4 fails as stated: a buffer made with mode `Manual` (no
`ElementCountThreshold`), after `SetThreshold(1)`, flushes on the first `Add`. -/
theorem Add_flushes_without_mode_flag :
    Int.land (New collTest.empty Manual : Buffer collTest byte).mode ElementCountThreshold = 0 ∧
    ((New collTest.empty Manual).SetThreshold collTest.coll 1).2.mode = Manual ∧
    flushCalls (((New collTest.empty Manual).SetThreshold collTest.coll 1).2.since
      (addAll collTest.coll ((New collTest.empty Manual).SetThreshold collTest.coll 1).2 [0])) = 1 ∧
    (addAll collTest.coll ((New collTest.empty Manual).SetThreshold collTest.coll 1).2
      [0]).data.numFlushes = 1 := by
  refine ⟨?_, ?_, ?_, ?_⟩ <;> decide

/-! ## C5: the guard of `New` and `Destroy` -/

/-- C5 at its failing inputs. For every mode, also one without `TimeInterval` such
as `Manual`, `New` starts the goroutine and `Destroy` sends on `stop`: it returns
only through the goroutine's `case <-b.stop`, and not at all while the goroutine is
not in `select`. -/
theorem New_starts_loop_every_mode (c : Collection σ ε) (data : σ) (mode : FlushMode) :
    timed mode = true ∧
    (New data mode : Buffer σ ε).loop = Loop.top ∧
    (∀ b : Buffer σ ε, b.Destroy c = loopStep c b LoopEvent.stop) ∧
    Int.land Manual TimeInterval = 0 ∧
    timed Manual = true ∧
    (New collTest.empty Manual : Buffer collTest byte).loop = Loop.top := by
  refine ⟨timed_eq_true mode, ?_, ?_, by decide, by decide, by decide⟩
  · simp [New, timed_eq_true]
  · intro b
    simp [Buffer.Destroy, timed_eq_true]

/-! ## C8: `Destroy` -/

theorem ticks_append (xs ys : List (Ev ε)) : ticks (xs ++ ys) = ticks xs + ticks ys := by
  induction xs with
  | nil => simp [ticks]
  | cons x xs ih =>
    cases x
    all_goals simp [ticks, ih]
    omega

theorem loop_SetThreshold (c : Collection σ ε) (b : Buffer σ ε) (n : Int) :
    (b.SetThreshold c n).2.loop = b.loop := by
  unfold Buffer.SetThreshold
  by_cases h0 : n = 0
  · simp [h0]
  · by_cases h1 : n ≤ (c.Count b.data).1
    · simp [h0, h1, Buffer.callCount]
    · simp [h0, h1, Buffer.callCount]

theorem loopStep_terminated (c : Collection σ ε) (b : Buffer σ ε)
    (hl : b.loop = Loop.terminated) (ev : LoopEvent) : loopStep c b ev = none := by
  cases ev <;> simp [loopStep, hl]

/-- Once the goroutine has returned, no step revives it and none is a tick. -/
theorem step_terminated (c : Collection σ ε) (b b1 : Buffer σ ε) (ev : Event ε)
    (hl : b.loop = Loop.terminated) (h : step c b ev = some b1) :
    b1.loop = Loop.terminated ∧ ticks b1.trace = ticks b.trace := by
  have hticks : ticks b1.trace = ticks b.trace := by
    obtain ⟨seg, hseg, hcase⟩ := step_seg c b b1 ev h
    rcases hcase with ⟨rfl, -⟩ | ⟨-, ht, -⟩
    · simp only [step] at h
      rw [loopStep_terminated c b hl] at h
      exact absurd h (by simp)
    · rw [hseg, ticks_append, ht, Nat.add_zero]
  refine ⟨?_, hticks⟩
  cases ev with
  | Add e =>
    simp only [step, Option.some.injEq] at h
    rw [← h, (frame_Add c b e).2.2.2.1, hl]
  | Flush =>
    simp only [step, Option.some.injEq] at h
    rw [← h, (frame_Flush c b).2.2.2.2.1, hl]
  | SetInterval d =>
    simp only [step, Option.some.injEq] at h
    rw [← h]
    simpa [Buffer.SetInterval] using hl
  | SetThreshold n =>
    simp only [step, Option.some.injEq] at h
    rw [← h, loop_SetThreshold, hl]
  | Destroy =>
    simp only [step, Buffer.Destroy, timed_eq_true, if_true] at h
    rw [loopStep_terminated c b hl] at h
    exact absurd h (by simp)
  | loop lev =>
    cases lev
    all_goals simp only [step] at h
    all_goals first
      | exact absurd h (by simp)
      | (rw [loopStep_terminated c b hl] at h; exact absurd h (by simp))
  | goFlush =>
    simp only [step] at h
    by_cases hp : 0 < b.pending
    · rw [if_pos hp, Option.some.injEq] at h
      rw [← h, (frame_Flush c _).2.2.2.2.1]
      exact hl
    · rw [if_neg hp] at h
      exact absurd h (by simp)
  | elapse t =>
    simp only [step, Option.some.injEq] at h
    rw [← h]
    simp [hl, Loop.elapse]

theorem run_terminated (c : Collection σ ε) (evs : List (Event ε)) :
    ∀ b b1 : Buffer σ ε, b.loop = Loop.terminated → run c b evs = some b1 →
      b1.loop = Loop.terminated ∧ ticks b1.trace = ticks b.trace := by
  induction evs with
  | nil =>
    intro b b1 hl h
    simp only [run, Option.some.injEq] at h
    subst h
    exact ⟨hl, rfl⟩
  | cons ev evs ih =>
    intro b b1 hl h
    simp only [run] at h
    cases hs : step c b ev with
    | none => rw [hs] at h; exact absurd h (by simp)
    | some b0 =>
      rw [hs] at h
      obtain ⟨hl0, ht0⟩ := step_terminated c b b0 ev hl hs
      obtain ⟨hl1, ht1⟩ := ih b0 b1 hl0 h
      exact ⟨hl1, ht1.trans ht0⟩

/-- C8. Once `Destroy` has returned, the goroutine was in `select`, has taken
`case <-b.stop` and is terminated, without a flush; terminated has no outgoing
transition, so whatever happens afterwards (method calls, dispatched flushes, any
amount of time elapsing, whatever interval was set) the goroutine stays terminated
and receives no timer tick: no timer-triggered `Flush` occurs. -/
theorem Destroy_terminates (c : Collection σ ε) (b b1 : Buffer σ ε)
    (h : b.Destroy c = some b1) :
    (∃ t, b.loop = Loop.waiting t) ∧
    b1 = { b with loop := Loop.terminated } ∧
    (∀ ev, loopStep c b1 ev = none) ∧
    ∀ evs b2, run c b1 evs = some b2 →
      b2.loop = Loop.terminated ∧ ticks b2.trace = ticks b.trace ∧
      step c b2 (Event.loop LoopEvent.tick) = none := by
  simp only [Buffer.Destroy, timed_eq_true, if_true] at h
  rw [loopStep_stop_iff] at h
  obtain ⟨hw, rfl⟩ := h
  refine ⟨hw, rfl, fun ev => loopStep_terminated c _ rfl ev, ?_⟩
  intro evs b2 hrun
  obtain ⟨hl, ht⟩ := run_terminated c evs _ b2 rfl hrun
  exact ⟨hl, ht, by simp only [step]; exact loopStep_terminated c b2 hl _⟩

/-- The test `TestDestroy`: `SetInterval(1ms)`, the goroutine arms its timer, `Destroy`,
then 1.5ms pass: the goroutine is terminated, the tick cannot be received, and the
test collection has 0 flushes. -/
theorem Destroy_terminates_witness :
    run collTest.coll (New collTest.empty 6)
      [Event.SetInterval 1000000, Event.loop LoopEvent.check, Event.loop LoopEvent.arm,
       Event.Destroy, Event.elapse 1500000] =
      some { data := collTest.empty, mode := 6, threshold := 0, interval := 1000000,
             loop := Loop.terminated, senders := 1, pending := 0, trace := [] } ∧
    step collTest.coll
      { data := collTest.empty, mode := 6, threshold := 0, interval := 1000000,
        loop := Loop.terminated, senders := 1, pending := 0, trace := [] }
      (Event.loop LoopEvent.tick) = none ∧
    ticks ({ data := collTest.empty, mode := 6, threshold := 0, interval := 1000000,
             loop := Loop.terminated, senders := 1, pending := 0, trace := [] } :
        Buffer collTest byte).trace = 0 :=
  have h := Destroy_terminates collTest.coll
    { data := collTest.empty, mode := 6, threshold := 0, interval := 1000000,
      loop := Loop.waiting (some 1000000), senders := 1, pending := 0, trace := [] }
    { data := collTest.empty, mode := 6, threshold := 0, interval := 1000000,
      loop := Loop.terminated, senders := 1, pending := 0, trace := [] } rfl
  have h2 := h.2.2.2 [Event.elapse 1500000]
    { data := collTest.empty, mode := 6, threshold := 0, interval := 1000000,
      loop := Loop.terminated, senders := 1, pending := 0, trace := [] } rfl
  ⟨rfl, h2.2.2, h2.2.1⟩

/-! ## C9: `New` -/

/-- With no interval set, nothing dispatched and nothing recorded, a step that
is not a method call keeps it so: the goroutine can only go from the start of its
iteration to a `select` without timer. -/
theorem step_idle (c : Collection σ ε) (data : σ) (b b1 : Buffer σ ε) (ev : Event ε)
    (hev : ev.isMethod = false) (h : step c b ev = some b1)
    (hinv : b.trace = [] ∧ b.data = data ∧ b.interval = 0 ∧ b.senders = 0 ∧ b.pending = 0 ∧
      (b.loop = Loop.top ∨ b.loop = Loop.waiting none)) :
    b1.trace = [] ∧ b1.data = data ∧ b1.interval = 0 ∧ b1.senders = 0 ∧ b1.pending = 0 ∧
      (b1.loop = Loop.top ∨ b1.loop = Loop.waiting none) := by
  obtain ⟨htr, hdata, hint, hsend, hpend, hloop⟩ := hinv
  cases ev with
  | loop lev =>
    cases lev with
    | check =>
      simp only [step] at h
      rw [loopStep_check_iff] at h
      obtain ⟨-, rfl⟩ := h
      simp [htr, hdata, hint, hsend, hpend]
    | arm =>
      simp only [step] at h
      rw [loopStep_arm_iff] at h
      rcases hloop with hl | hl <;> simp [hl] at h
    | stop => simp [step] at h
    | intervalUpdate =>
      simp only [step] at h
      rw [loopStep_intervalUpdate_iff] at h
      omega
    | tick =>
      simp only [step] at h
      rw [loopStep_tick_iff] at h
      obtain ⟨r, hr, -, -⟩ := h
      rcases hloop with hl | hl <;> simp [hl] at hr
  | goFlush =>
    simp only [step] at h
    rw [if_neg (by omega)] at h
    exact absurd h (by simp)
  | elapse t =>
    simp only [step, Option.some.injEq] at h
    subst h
    rcases hloop with hl | hl <;> simp [htr, hdata, hint, hsend, hpend, hl, Loop.elapse]
  | _ => simp [Event.isMethod] at hev

theorem run_idle (c : Collection σ ε) (data : σ) (evs : List (Event ε)) :
    ∀ b b1 : Buffer σ ε, (∀ ev ∈ evs, ev.isMethod = false) → run c b evs = some b1 →
      (b.trace = [] ∧ b.data = data ∧ b.interval = 0 ∧ b.senders = 0 ∧ b.pending = 0 ∧
        (b.loop = Loop.top ∨ b.loop = Loop.waiting none)) →
      b1.trace = [] ∧ b1.data = data := by
  induction evs with
  | nil =>
    intro b b1 _ h hinv
    simp only [run, Option.some.injEq] at h
    subst h
    exact ⟨hinv.1, hinv.2.1⟩
  | cons ev evs ih =>
    intro b b1 hev h hinv
    simp only [run] at h
    cases hs : step c b ev with
    | none => rw [hs] at h; exact absurd h (by simp)
    | some b0 =>
      rw [hs] at h
      exact ih b0 b1 (fun e he => hev e (List.mem_cons_of_mem _ he)) h
        (step_idle c data b b0 ev (hev ev (List.mem_cons_self _ _)) hs hinv)

/-- C9. For every collection and mode, `New` makes no call on the collection and
sets threshold and interval to 0; and as long as no method of the buffer is
called, whatever the goroutine does and however much time passes, no call is made
on the collection: it stays as it was given, so its `Count` and its flushes are
what they were. -/
theorem New_spec (c : Collection σ ε) (data : σ) (mode : FlushMode) :
    (New data mode : Buffer σ ε).trace = [] ∧
    (New data mode : Buffer σ ε).data = data ∧
    (New data mode : Buffer σ ε).threshold = 0 ∧
    (New data mode : Buffer σ ε).interval = 0 ∧
    (New data mode : Buffer σ ε).mode = mode ∧
    (New data mode : Buffer σ ε).pending = 0 ∧
    ∀ (evs : List (Event ε)) (b1 : Buffer σ ε),
      (∀ ev ∈ evs, ev.isMethod = false) → run c (New data mode) evs = some b1 →
      b1.trace = [] ∧ calls b1.trace = [] ∧ flushCalls b1.trace = 0 ∧ b1.data = data ∧
      c.Count b1.data = c.Count data := by
  have hnew : (New data mode : Buffer σ ε) =
      { data := data, mode := mode, threshold := 0, interval := 0, loop := Loop.top,
        senders := 0, pending := 0, trace := [] } := by
    simp [New, timed_eq_true]
  rw [hnew]
  refine ⟨rfl, rfl, rfl, rfl, rfl, rfl, ?_⟩
  intro evs b1 hev hrun
  obtain ⟨htr, hdata⟩ := run_idle c data evs _ b1 hev hrun
    ⟨rfl, rfl, rfl, rfl, rfl, Or.inl rfl⟩
  rw [htr, hdata]
  exact ⟨rfl, rfl, rfl, rfl, rfl⟩

/-- The test `TestNew`: after `New` on the empty test collection, the goroutine starts its
iteration and 1ms passes; the collection has 0 flushes and `Count` 0. -/
theorem New_spec_witness :
    run collTest.coll (New collTest.empty 6)
      [Event.loop LoopEvent.check, Event.elapse 1000000] =
      some { data := collTest.empty, mode := 6, threshold := 0, interval := 0,
             loop := Loop.waiting none, senders := 0, pending := 0, trace := [] } ∧
    flushCalls ({ data := collTest.empty, mode := 6, threshold := 0, interval := 0,
                  loop := Loop.waiting none, senders := 0, pending := 0, trace := [] } :
      Buffer collTest byte).trace = 0 ∧
    collTest.empty.numFlushes = 0 ∧ collTest.empty.Count = 0 :=
  have h := (New_spec collTest.coll collTest.empty 6).2.2.2.2.2.2
    [Event.loop LoopEvent.check, Event.elapse 1000000]
    { data := collTest.empty, mode := 6, threshold := 0, interval := 0,
      loop := Loop.waiting none, senders := 0, pending := 0, trace := [] }
    (by decide) rfl
  ⟨rfl, h.2.2.1, rfl, rfl⟩

/-! ## C10: the goroutine -/

/-- How a step acts on the program point of the goroutine. -/
theorem step_loop_cases (c : Collection σ ε) (b b1 : Buffer σ ε) (ev : Event ε)
    (h : step c b ev = some b1) :
    (b1.loop = b.loop ∧ ticks b1.trace = ticks b.trace) ∨
    (∃ t, ev = Event.elapse t ∧ b1 = { b with loop := b.loop.elapse t }) ∨
    (ev = Event.Destroy ∧ loopStep c b LoopEvent.stop = some b1) ∨
    (∃ lev, ev = Event.loop lev ∧ lev ≠ LoopEvent.stop ∧ loopStep c b lev = some b1) := by
  have hticks : ev ≠ Event.loop LoopEvent.tick → ticks b1.trace = ticks b.trace := by
    intro hne
    obtain ⟨seg, hseg, hcase⟩ := step_seg c b b1 ev h
    rcases hcase with ⟨rfl, -⟩ | ⟨-, ht, -⟩
    · exact absurd rfl hne
    · rw [hseg, ticks_append, ht, Nat.add_zero]
  cases ev with
  | Add e =>
    refine Or.inl ⟨?_, hticks (by simp)⟩
    simp only [step, Option.some.injEq] at h
    rw [← h, (frame_Add c b e).2.2.2.1]
  | Flush =>
    refine Or.inl ⟨?_, hticks (by simp)⟩
    simp only [step, Option.some.injEq] at h
    rw [← h, (frame_Flush c b).2.2.2.2.1]
  | SetInterval d =>
    refine Or.inl ⟨?_, hticks (by simp)⟩
    simp only [step, Option.some.injEq] at h
    rw [← h]
    simp [Buffer.SetInterval]
  | SetThreshold n =>
    refine Or.inl ⟨?_, hticks (by simp)⟩
    simp only [step, Option.some.injEq] at h
    rw [← h, loop_SetThreshold]
  | Destroy =>
    simp only [step, Buffer.Destroy, timed_eq_true, if_true] at h
    exact Or.inr (Or.inr (Or.inl ⟨rfl, h⟩))
  | loop lev =>
    refine Or.inr (Or.inr (Or.inr ⟨lev, rfl, ?_, ?_⟩))
    · rintro rfl
      simp [step] at h
    · cases lev
      all_goals first
        | exact h
        | simp [step] at h
  | goFlush =>
    refine Or.inl ⟨?_, hticks (by simp)⟩
    simp only [step] at h
    by_cases hp : 0 < b.pending
    · rw [if_pos hp, Option.some.injEq] at h
      rw [← h, (frame_Flush c _).2.2.2.2.1]
    · rw [if_neg hp] at h
      exact absurd h (by simp)
  | elapse t =>
    simp only [step, Option.some.injEq] at h
    exact Or.inr (Or.inl ⟨t, rfl, h.symm⟩)

/-- C10. The goroutine of `New`, for every collection and buffer state.
A transition other than the timer event changes neither the collection nor the
record of calls: a flush happens only on a timer event.  The timer event is
enabled only in `select` with a timer, which exists only after the test
`b.interval > 0` at the start of the iteration was true; an iteration that starts
with interval `≤ 0` waits without timer and is left only by `Destroy` (stop) or by
an interval update.  Stop ends the goroutine with no flush.  An interval update
makes no flush and starts a new iteration, which reads the stored interval again.
The timer event makes exactly one `Buffer.Flush` and starts a new iteration. -/
theorem loop_spec (c : Collection σ ε) (b : Buffer σ ε) :
    (∀ ev b1, loopStep c b ev = some b1 → ev ≠ LoopEvent.tick →
      b1.trace = b.trace ∧ b1.data = b.data) ∧
    (∀ b1, loopStep c b LoopEvent.tick = some b1 →
      ∃ r, b.loop = Loop.waiting (some r) ∧ r ≤ 0) ∧
    (∀ ev b1 r, step c b ev = some b1 → b1.loop = Loop.waiting (some r) →
      (∃ r0, b.loop = Loop.waiting (some r0)) ∨
      (b.loop = Loop.arming ∧ ev = Event.loop LoopEvent.arm)) ∧
    (∀ ev b1, step c b ev = some b1 → b1.loop = Loop.arming →
      b.loop = Loop.arming ∨
      (b.loop = Loop.top ∧ ev = Event.loop LoopEvent.check ∧ b.interval > 0)) ∧
    (b.loop = Loop.top → b.interval ≤ 0 →
      loopStep c b LoopEvent.check = some { b with loop := Loop.waiting none }) ∧
    (b.loop = Loop.waiting none → ∀ ev b1, step c b ev = some b1 →
      (b1.loop = Loop.waiting none ∧ ticks b1.trace = ticks b.trace) ∨
      (ev = Event.Destroy ∧ b1 = { b with loop := Loop.terminated }) ∨
      (ev = Event.loop LoopEvent.intervalUpdate ∧
        b1 = { b with senders := b.senders - 1, loop := Loop.top })) ∧
    (∀ t, b.loop = Loop.waiting t →
      loopStep c b LoopEvent.stop = some { b with loop := Loop.terminated }) ∧
    (∀ t, b.loop = Loop.waiting t → 0 < b.senders →
      loopStep c b LoopEvent.intervalUpdate =
        some { b with senders := b.senders - 1, loop := Loop.top }) ∧
    (b.loop = Loop.top →
      loopStep c b LoopEvent.check =
        some { b with loop := if b.interval > 0 then Loop.arming else Loop.waiting none }) ∧
    (b.loop = Loop.arming →
      loopStep c b LoopEvent.arm = some { b with loop := Loop.waiting (some b.interval) }) ∧
    (∀ r, b.loop = Loop.waiting (some r) → r ≤ 0 →
      ∃ b1, loopStep c b LoopEvent.tick = some b1 ∧ b1.loop = Loop.top ∧
        b1.trace = b.trace ++ [Ev.tick, Ev.lock, Ev.call Call.Flush, Ev.unlock] ∧
        flushCalls (b.since b1) = 1 ∧ b1.data = c.Flush b.data) := by
  refine ⟨?_, ?_, ?_, ?_, ?_, ?_, ?_, ?_, ?_, ?_, ?_⟩
  · intro ev b1 h hne
    cases ev with
    | check => rw [loopStep_check_iff] at h; obtain ⟨-, rfl⟩ := h; exact ⟨rfl, rfl⟩
    | arm => rw [loopStep_arm_iff] at h; obtain ⟨-, rfl⟩ := h; exact ⟨rfl, rfl⟩
    | stop => rw [loopStep_stop_iff] at h; obtain ⟨-, rfl⟩ := h; exact ⟨rfl, rfl⟩
    | intervalUpdate =>
      rw [loopStep_intervalUpdate_iff] at h; obtain ⟨-, -, rfl⟩ := h; exact ⟨rfl, rfl⟩
    | tick => exact absurd rfl hne
  · intro b1 h
    rw [loopStep_tick_iff] at h
    obtain ⟨r, hr, hle, -⟩ := h
    exact ⟨r, hr, hle⟩
  · intro ev b1 r h hl1
    rcases step_loop_cases c b b1 ev h with ⟨hl, -⟩ | ⟨t, -, rfl⟩ | ⟨-, hs⟩ | ⟨lev, rfl, -, hs⟩
    · exact Or.inl ⟨r, by rw [← hl, hl1]⟩
    · left
      cases hb : b.loop with
      | waiting o =>
        cases o with
        | none => simp [hb, Loop.elapse] at hl1
        | some r0 => exact ⟨r0, rfl⟩
      | _ => simp [hb, Loop.elapse] at hl1
    · rw [loopStep_stop_iff] at hs
      obtain ⟨-, rfl⟩ := hs
      simp at hl1
    · cases lev with
      | check =>
        rw [loopStep_check_iff] at hs
        obtain ⟨-, rfl⟩ := hs
        by_cases hi : b.interval > 0 <;> simp [hi] at hl1
      | arm =>
        rw [loopStep_arm_iff] at hs
        exact Or.inr ⟨hs.1, rfl⟩
      | stop =>
        rw [loopStep_stop_iff] at hs
        obtain ⟨-, rfl⟩ := hs
        simp at hl1
      | intervalUpdate =>
        rw [loopStep_intervalUpdate_iff] at hs
        obtain ⟨-, -, rfl⟩ := hs
        simp at hl1
      | tick =>
        rw [loopStep_tick_iff] at hs
        obtain ⟨r0, -, -, rfl⟩ := hs
        simp at hl1
  · intro ev b1 h hl1
    rcases step_loop_cases c b b1 ev h with ⟨hl, -⟩ | ⟨t, -, rfl⟩ | ⟨-, hs⟩ | ⟨lev, rfl, -, hs⟩
    · exact Or.inl (by rw [← hl, hl1])
    · left
      cases hb : b.loop with
      | waiting o => cases o <;> simp [hb, Loop.elapse] at hl1
      | arming => rfl
      | _ => simp [hb, Loop.elapse] at hl1
    · rw [loopStep_stop_iff] at hs
      obtain ⟨-, rfl⟩ := hs
      simp at hl1
    · cases lev with
      | check =>
        rw [loopStep_check_iff] at hs
        obtain ⟨htop, rfl⟩ := hs
        by_cases hi : b.interval > 0
        · exact Or.inr ⟨htop, rfl, hi⟩
        · simp [hi] at hl1
      | arm =>
        rw [loopStep_arm_iff] at hs
        exact Or.inl hs.1
      | stop =>
        rw [loopStep_stop_iff] at hs
        obtain ⟨-, rfl⟩ := hs
        simp at hl1
      | intervalUpdate =>
        rw [loopStep_intervalUpdate_iff] at hs
        obtain ⟨-, -, rfl⟩ := hs
        simp at hl1
      | tick =>
        rw [loopStep_tick_iff] at hs
        obtain ⟨r0, -, -, rfl⟩ := hs
        simp at hl1
  · intro htop hi
    rw [loopStep_check_iff]
    exact ⟨htop, by rw [if_neg (by omega)]⟩
  · intro hw ev b1 h
    rcases step_loop_cases c b b1 ev h with ⟨hl, ht⟩ | ⟨t, -, rfl⟩ | ⟨hev, hs⟩ | ⟨lev, rfl, hne, hs⟩
    · exact Or.inl ⟨by rw [hl, hw], ht⟩
    · exact Or.inl ⟨by simp [hw, Loop.elapse], rfl⟩
    · rw [loopStep_stop_iff] at hs
      exact Or.inr (Or.inl ⟨hev, hs.2⟩)
    · cases lev with
      | check => rw [loopStep_check_iff] at hs; simp [hw] at hs
      | arm => rw [loopStep_arm_iff] at hs; simp [hw] at hs
      | stop => exact absurd rfl hne
      | intervalUpdate =>
        rw [loopStep_intervalUpdate_iff] at hs
        exact Or.inr (Or.inr ⟨rfl, hs.2.2⟩)
      | tick =>
        rw [loopStep_tick_iff] at hs
        obtain ⟨r, hr, -, -⟩ := hs
        simp [hw] at hr
  · intro t hw
    rw [loopStep_stop_iff]
    exact ⟨⟨t, hw⟩, rfl⟩
  · intro t hw hs
    rw [loopStep_intervalUpdate_iff]
    exact ⟨⟨t, hw⟩, hs, rfl⟩
  · intro htop
    rw [loopStep_check_iff]
    exact ⟨htop, rfl⟩
  · intro harm
    rw [loopStep_arm_iff]
    exact ⟨harm, rfl⟩
  · intro r hw hr
    refine ⟨{ (b.emit Ev.tick).Flush c with loop := Loop.top }, ?_, rfl, ?_, ?_, ?_⟩
    · rw [loopStep_tick_iff]
      exact ⟨r, hw, hr, rfl⟩
    · simp [trace_Flush, Buffer.emit]
    · simp [Buffer.since, trace_Flush, Buffer.emit, flushCalls]
    · simp [(frame_Flush c _).1, Buffer.emit]

/-- The test `TestSetInterval`: `SetInterval(1ms)`, the goroutine arms its timer
and 1.5ms pass; the timer event is then enabled, makes one flush of the test
collection and starts a new iteration. -/
theorem loop_spec_witness :
    run collTest.coll (New collTest.empty 6)
      [Event.SetInterval 1000000, Event.loop LoopEvent.check, Event.loop LoopEvent.arm,
       Event.elapse 1500000] =
      some { data := collTest.empty, mode := 6, threshold := 0, interval := 1000000,
             loop := Loop.waiting (some (-500000)), senders := 1, pending := 0, trace := [] } ∧
    ∃ b1 : Buffer collTest byte,
      loopStep collTest.coll
        { data := collTest.empty, mode := 6, threshold := 0, interval := 1000000,
          loop := Loop.waiting (some (-500000)), senders := 1, pending := 0, trace := [] }
        LoopEvent.tick = some b1 ∧
      b1.loop = Loop.top ∧
      b1.trace = [Ev.tick, Ev.lock, Ev.call Call.Flush, Ev.unlock] ∧
      b1.data = { data := [], numFlushes := 1 } := by
  refine ⟨rfl, ?_⟩
  obtain ⟨b1, h1, h2, h3, -, h5⟩ := (loop_spec collTest.coll
    { data := collTest.empty, mode := 6, threshold := 0, interval := 1000000,
      loop := Loop.waiting (some (-500000)), senders := 1, pending := 0,
      trace := [] }).2.2.2.2.2.2.2.2.2.2 (-500000) rfl (by decide)
  exact ⟨b1, h1, h2, h3, h5⟩

end Batcher
